/-
Verification of the repository metadata fetch pipeline (pkg/repo/fetch.go).

The Go code is shallowly embedded as pure Lean functions.  Network access,
cache writes, XML parsing and the sha256 digest are collaborators of the
fetcher (Getter, CacheHelper, encoding/xml, crypto/sha256); they are
modelled by an explicit environment `Env` supplying the outcome of each
effect, and every pipeline function additionally returns a `Trace`
recording, in order, the URLs requested and the files persisted.

Strings are Go strings (modelled at the character level; all inputs of
interest are ASCII).  The helpers `goClean`, `goDir`, `goJoin`, `goBase`,
`trimSuffix` mirror Go's path.Clean, path.Dir, path.Join, filepath.Base
and strings.TrimSuffix; `urlParse` mirrors net/url.Parse restricted to the
scheme://host/path shape the fetcher uses (query/fragment/userinfo parts,
which the fetcher never produces, are not modelled).
-/
import Mathlib

/-- Split a character list at every occurrence of `sep`, keeping empty
chunks, as Go's strings.Split does. -/
def splitCh (sep : Char) : List Char → List (List Char)
  | [] => [[]]
  | c :: cs =>
    match splitCh sep cs with
    | [] => [[]]
    | h :: t => if c = sep then [] :: h :: t else (c :: h) :: t

/-- Join chunks with `sep`, the inverse of `splitCh`. -/
def joinCh (sep : Char) : List (List Char) → List Char
  | [] => []
  | [x] => x
  | x :: xs => x ++ sep :: joinCh sep xs

/-- Go's `len(p) > 0 && p[0] == '/'` (path.IsAbs). -/
def goIsAbs (p : String) : Bool :=
  match p.data with
  | '/' :: _ => true
  | _ => false

/-- One step of Go path.Clean's element loop: skip empty and "." elements,
resolve ".." against the output stack (kept reversed), push anything else. -/
def cleanStep (rooted : Bool) (acc : List (List Char)) (seg : List Char) : List (List Char) :=
  if seg = [] ∨ seg = ['.'] then acc
  else if seg = ['.', '.'] then
    match acc with
    | s :: t => if s = ['.', '.'] then seg :: acc else t
    | [] => if rooted then [] else [seg]
  else seg :: acc

/-- Go path.Clean. -/
def goClean (p : String) : String :=
  if p.data = [] then "." else
  let rooted := goIsAbs p
  let out := ((splitCh '/' p.data).foldl (cleanStep rooted) []).reverse
  if out = [] then (if rooted then "/" else ".")
  else String.mk ((if rooted then ['/'] else []) ++ joinCh '/' out)

/-- Go path.Dir: everything up to (and including) the final slash, cleaned;
"." when the path holds no slash. -/
def goDir (p : String) : String :=
  let parts := splitCh '/' p.data
  if parts.length ≤ 1 then "."
  else goClean (String.mk (joinCh '/' parts.dropLast ++ ['/']))

/-- Go path.Join for two elements: empty elements are skipped, the rest is
joined with "/" and cleaned; all-empty input gives "". -/
def goJoin (a b : String) : String :=
  if a = "" ∧ b = "" then ""
  else if a = "" then goClean b
  else goClean (a ++ "/" ++ b)

/-- Go filepath.Base (slash-separated): "." for the empty path, trailing
slashes removed, then the last element; "/" when only slashes remain. -/
def goBase (p : String) : String :=
  if p.data = [] then "." else
  let q := (p.data.reverse.dropWhile (fun c => c = '/')).reverse
  if q = [] then "/"
  else
    match (splitCh '/' q).getLast? with
    | some s => String.mk s
    | none => "."

/-- Go strings.TrimSuffix. -/
def trimSuffix (s suff : String) : String :=
  if suff.data.isSuffixOf s.data then
    String.mk (s.data.take (s.data.length - suff.data.length))
  else s

/-- A path element in normal form: nonempty, no separator, and not one of
the special elements "." and "..", so path.Clean leaves it alone. -/
def normalSeg (cs : List Char) : Prop :=
  cs ≠ [] ∧ '/' ∉ cs ∧ cs ≠ ['.'] ∧ cs ≠ ['.', '.']

instance (cs : List Char) : Decidable (normalSeg cs) := by
  unfold normalSeg
  infer_instance

/-- Contiguous-sublist test on character lists. -/
def infixCh (needle : List Char) : List Char → Bool
  | [] => needle.isEmpty
  | c :: rest => needle.isPrefixOf (c :: rest) || infixCh needle rest

/-- Substring test on strings (needle inside haystack). -/
def strContains (hay needle : String) : Bool :=
  infixCh needle.data hay.data

/-- The parts of net/url.URL the fetcher touches. -/
structure GoURL where
  scheme : String
  host : String
  path : String
deriving DecidableEq, Repr

/-- Rendering of a GoURL back to a string (url.URL.String for the
scheme://host/path shapes produced here). -/
def GoURL.render (u : GoURL) : String :=
  if u.scheme = "" ∧ u.host = "" then u.path
  else u.scheme ++ "://" ++ u.host ++ u.path

/-- net/url.Parse restricted to the scheme://host/path shape; a string
without "://" is taken as a bare path. -/
def urlParse (s : String) : GoURL :=
  match s.splitOn "://" with
  | [] => ⟨"", "", s⟩
  | [_] => ⟨"", "", s⟩
  | sch :: rest =>
    let hp := String.intercalate "://" rest
    match hp.splitOn "/" with
    | [] => ⟨sch, hp, ""⟩
    | [h] => ⟨sch, h, ""⟩
    | h :: ps => ⟨sch, h, "/" ++ String.intercalate "/" ps⟩

/-! ## Metadata model (pkg/api) -/

/-- api.URL: one mirror candidate inside a metalink file entry (the
location/preference attributes play no role in the fetcher). -/
structure MURL where
  text : String
  protocol : String
deriving DecidableEq, Repr

/-- api.File: a metalink file entry.  The `sha256` field is modelled from
the spec: a metalink "stat[es] an expected checksum for the repository
index" (section 4.3, glossary); the accessor methods live in the api
package outside src/. -/
structure MFile where
  name : String
  urls : List MURL
  sha256 : Option String
deriving DecidableEq, Repr

/-- api.Metalink. -/
structure Metalink where
  files : List MFile
deriving DecidableEq, Repr

/-- Modelled from the spec: `Metalink.Repomod` (api package, not in src/)
selects the file entry referencing the repository index — "only the entry
referencing the repository index file is consulted" (section 6). -/
def Metalink.repomod (m : Metalink) : Option MFile :=
  m.files.find? (fun f => f.name == "repomd.xml")

/-- Modelled from the spec: `File.SHA256` (api package, not in src/)
returns the expected sha256 digest the metalink states for the entry, and
an error when the metalink states none. -/
def MFile.getSHA256 (f : MFile) : Except String String :=
  match f.sha256 with
  | some s => .ok s
  | none => .error "file has no sha256 hash"

/-- The `metalink.Repomod().SHA256()` call of Fetch.  Fetch only reaches it
after resolveMetaLink succeeded, so the repomod entry exists; the
unreachable missing-entry case is mapped to an error. -/
def Metalink.repomodSHA256 (m : Metalink) : Except String String :=
  match m.repomod with
  | some f => f.getSHA256
  | none => .error "no repomd.xml entry in metalink"

/-- api.Data: one repository-index entry (fields the fetcher reads,
flattened: Data.Type, Data.Checksum.{Type,Text}, Data.Location.Href). -/
structure Data where
  type : String
  checksumType : String
  checksumText : String
  locationHref : String
deriving DecidableEq, Repr

/-- api.Repomd. -/
structure Repomd where
  data : List Data
deriving DecidableEq, Repr

/-- Modelled from the spec: `Repomd.File` (api package, not in src/) looks
an entry up by metadata file type — "look up its entry in the verified
index" (section 4.3); the index has "one entry per metadata file type"
(section 3). -/
def Repomd.file (r : Repomd) (fileType : String) : Option Data :=
  r.data.find? (fun d => d.type == fileType)

/-- Modelled from the spec: `Data.SHA256` (api package, not in src/)
returns the entry's digest when its declared algorithm is sha256, and an
error otherwise — "unknown algorithms are a hard error, never silently
skipped" (section 3). -/
def Data.getSHA256 (d : Data) : Except String String :=
  if d.checksumType = "sha256" then .ok d.checksumText
  else .error ("unsupported checksum type " ++ d.checksumType)

/-- Modelled from the spec: api.PrimaryFileType (section 4.3 names the
required metadata file types "primary, filelists"). -/
def PrimaryFileType : String := "primary"

/-- Modelled from the spec: api.FilelistsFileType. -/
def FilelistsFileType : String := "filelists"

/-- bazeldnf.Repository: the configured repository (identity plus either a
metalink URL or a direct base URL, section 6). -/
structure Repository where
  name : String
  metalink : String
  baseurl : String
deriving DecidableEq, Repr

/-! ## Effect environment and trace -/

/-- Outcomes of the fetcher's collaborators: `get` is Getter.Get (body or
transport error), `write` is CacheHelper.WriteToRepoDir keyed by repository
name, file name and content (`none` = success), `parseMetalink` and
`parseRepomd` are the XML decoding of a persisted body, `digest` is the
hex sha256 of a body (toHex of the TeeReader's hash). -/
structure Env where
  get : String → Except String String
  write : String → String → String → Option String
  parseMetalink : String → Except String Metalink
  parseRepomd : String → Except String Repomd
  digest : String → String

/-- Observable effects, in order: URLs requested and files persisted
(repository name, file name, content). -/
structure Trace where
  requests : List String
  writes : List (String × String × String)
deriving DecidableEq, Repr

def Trace.nil : Trace := ⟨[], []⟩

def Trace.app (a b : Trace) : Trace := ⟨a.requests ++ b.requests, a.writes ++ b.writes⟩

instance : Append Trace := ⟨Trace.app⟩

/-- Error values produced inside pkg/repo/fetch.go, one constructor per
error site (Go reports them as fmt.Errorf strings; `renderF` below gives
the exact message). `transport` carries a collaborator error returned
unwrapped by resolveMetaLink. -/
inductive FErr where
  | transport (msg : String)
  | noRepomodRef
  | noSecureMirror
  | checksumMismatch (expected actual : String)
  | mirrorsExhausted
  | noFileEntry
  | noHref
  | fileGetFailed (url msg : String)
  | fileWriteFailed (url msg : String)
  | fileShaFailed (msg : String)
deriving DecidableEq, Repr

/-- The fmt.Errorf message of each fetch.go error site. -/
def renderF : FErr → String
  | .transport m => m
  | .noRepomodRef => "Metalink file contains no reference to repod.xml"
  | .noSecureMirror => "Metalink contains no https url to a rpomd.xml file"
  | .checksumMismatch e a => "Expected sha256 sum " ++ e ++ ", but got " ++ a
  | .mirrorsExhausted => "All mirrors tried, could not download repomd.xml"
  | .noFileEntry => "No 'file' file referenced in repomd"
  | .noHref => "The 'file' file has no href associated"
  | .fileGetFailed u m => "Failed to load promary repository file from " ++ u ++ ": " ++ m
  | .fileWriteFailed u m => "Failed to write file.xml from " ++ u ++ " to file: " ++ m
  | .fileShaFailed m => "failed to get sha256sum of file: " ++ m

/-- The expected digest a checksum-mismatch error carries. -/
def FErr.expectedDigest : FErr → Option String
  | .checksumMismatch e _ => some e
  | _ => none

/-- The actual digest a checksum-mismatch error carries. -/
def FErr.actualDigest : FErr → Option String
  | .checksumMismatch _ a => some a
  | _ => none

/-- Errors returned by Fetch itself, one constructor per wrapping
fmt.Errorf in RepoFetcherImpl.Fetch. -/
inductive TopErr where
  | metalinkFailed (repoName : String) (e : FErr)
  | repomdShaFailed (msg : String)
  | repomdFailed (repoName : String) (e : FErr)
  | primaryFailed (repoName : String) (e : FErr)
  | filelistsFailed (repoName : String) (e : FErr)
deriving DecidableEq, Repr

/-- The fmt.Errorf message of each Fetch error site. -/
def renderTop : TopErr → String
  | .metalinkFailed n e => "failed to resolve metalink for " ++ n ++ ": " ++ renderF e
  | .repomdShaFailed m => "failed to get sha256sum of repomd file: " ++ m
  | .repomdFailed n e => "failed to fetch repomd.xml for " ++ n ++ ": " ++ renderF e
  | .primaryFailed n e => "failed to fetch primary.xml for " ++ n ++ ": " ++ renderF e
  | .filelistsFailed n e => "failed to fetch filelists.xml for " ++ n ++ ": " ++ renderF e

/-! ## The fetch pipeline (pkg/repo/fetch.go) -/

/-- The body of resolveMetaLink's url loop: skip non-https candidates,
append the rest in order. -/
def httpsStep (acc : List String) (u : MURL) : List String :=
  if u.protocol == "https" then acc ++ [u.text] else acc

/-- RepoFetcherImpl.resolveMetaLink: fetch the metalink document, persist
it as "metalink", decode it, take the repomd.xml entry, and collect the
https candidate URLs in document order. -/
def resolveMetaLink (env : Env) (repo : Repository) : Except FErr (Metalink × List String) × Trace :=
  match env.get repo.metalink with
  | .error m => (.error (.transport m), ⟨[repo.metalink], []⟩)
  | .ok body =>
    match env.write repo.name "metalink" body with
    | some m => (.error (.transport m), ⟨[repo.metalink], []⟩)
    | none =>
      let tr : Trace := ⟨[repo.metalink], [(repo.name, "metalink", body)]⟩
      match env.parseMetalink body with
      | .error m => (.error (.transport m), tr)
      | .ok ml =>
        match ml.repomod with
        | none => (.error .noRepomodRef, tr)
        | some f =>
          let urls := f.urls.foldl httpsStep []
          if urls.isEmpty then (.error .noSecureMirror, tr)
          else (.ok (ml, urls), tr)

/-- Outcome of resolveRepomd's mirror loop. -/
inductive LoopOut where
  | found (r : Repomd) (u : GoURL)
  | mismatch (expected actual : String)
  | exhausted
deriving DecidableEq, Repr

/-- The body of resolveRepomd's `for _, u := range repomdURLs` loop: a
failed Get, a failed cache write or a failed decode advances to the next
candidate; a digest differing from a non-empty expected sum returns at
once; a decoded index together with its parsed mirror URL stops the
iteration. -/
def repomdLoop (env : Env) (repo : Repository) (sha256sum : String) :
    List String → LoopOut × Trace
  | [] => (.exhausted, ⟨[], []⟩)
  | u :: rest =>
    match env.get u with
    | .error _ =>
      let r := repomdLoop env repo sha256sum rest
      (r.fst, ⟨u :: r.snd.requests, r.snd.writes⟩)
    | .ok body =>
      match env.write repo.name "repomd.xml" body with
      | some _ =>
        let r := repomdLoop env repo sha256sum rest
        (r.fst, ⟨u :: r.snd.requests, r.snd.writes⟩)
      | none =>
        if sha256sum ≠ "" ∧ env.digest body ≠ sha256sum then
          (.mismatch sha256sum (env.digest body), ⟨[u], [(repo.name, "repomd.xml", body)]⟩)
        else
          match env.parseRepomd body with
          | .error _ =>
            let r := repomdLoop env repo sha256sum rest
            (r.fst, ⟨u :: r.snd.requests, (repo.name, "repomd.xml", body) :: r.snd.writes⟩)
          | .ok file => (.found file (urlParse u), ⟨[u], [(repo.name, "repomd.xml", body)]⟩)

/-- The mirror base path: `strings.TrimSuffix(path.Dir(mirror.Path), "repodata")`. -/
def repomdBasePath (p : String) : String :=
  trimSuffix (goDir p) "repodata"

/-- RepoFetcherImpl.resolveRepomd: run the mirror loop, then surface
either the checksum mismatch, the mirrors-exhausted error, or the decoded
index pinned to the successful mirror with its path rewritten to the
repository base. -/
def resolveRepomd (env : Env) (repo : Repository) (repomdURLs : List String)
    (sha256sum : String) : Except FErr (Repomd × GoURL) × Trace :=
  match repomdLoop env repo sha256sum repomdURLs with
  | (.mismatch e a, t) => (.error (.checksumMismatch e a), t)
  | (.exhausted, t) => (.error .mirrorsExhausted, t)
  | (.found file u, t) => (.ok (file, { u with path := repomdBasePath u.path }), t)

/-- The URL a typed metadata file is loaded from: the location href itself
when path-absolute, otherwise the pinned mirror with the href joined onto
its base path. -/
def typedFileURL (mirror : GoURL) (href : String) : String :=
  if goIsAbs href then href
  else GoURL.render { mirror with path := goJoin mirror.path href }

/-- RepoFetcherImpl.fetchFile: look the entry up in the verified index,
resolve its location against the pinned mirror, fetch it, persist it under
its base name, then compare the expected digest with the streamed one. -/
def fetchFile (env : Env) (fileType : String) (repo : Repository) (repomd : Repomd)
    (mirror : GoURL) : Except FErr Unit × Trace :=
  match repomd.file fileType with
  | none => (.error .noFileEntry, ⟨[], []⟩)
  | some file =>
    if file.locationHref = "" then (.error .noHref, ⟨[], []⟩)
    else
      let fileURL := typedFileURL mirror file.locationHref
      let fileName := goBase file.locationHref
      match env.get fileURL with
      | .error m => (.error (.fileGetFailed fileURL m), ⟨[fileURL], []⟩)
      | .ok body =>
        match env.write repo.name fileName body with
        | some m => (.error (.fileWriteFailed fileURL m), ⟨[fileURL], []⟩)
        | none =>
          match file.getSHA256 with
          | .error m => (.error (.fileShaFailed m), ⟨[fileURL], [(repo.name, fileName, body)]⟩)
          | .ok sha256sum =>
            if sha256sum ≠ env.digest body then
              (.error (.checksumMismatch sha256sum (env.digest body)),
                ⟨[fileURL], [(repo.name, fileName, body)]⟩)
            else (.ok (), ⟨[fileURL], [(repo.name, fileName, body)]⟩)

/-- The tail of Fetch's per-repository body shared by the metalink and the
base-URL branch: resolve the index over the candidate list, then fetch the
primary and the filelists file from the pinned mirror. -/
def fetchRepoCont (env : Env) (repo : Repository) (sha256sum : String)
    (repomdURLs : List String) : Except TopErr Unit × Trace :=
  match resolveRepomd env repo repomdURLs sha256sum with
  | (.error e, t) => (.error (.repomdFailed repo.name e), t)
  | (.ok (repomd, mirror), t) =>
    match fetchFile env PrimaryFileType repo repomd mirror with
    | (.error e, t2) => (.error (.primaryFailed repo.name e), t ++ t2)
    | (.ok _, t2) =>
      match fetchFile env FilelistsFileType repo repomd mirror with
      | (.error e, t3) => (.error (.filelistsFailed repo.name e), t ++ t2 ++ t3)
      | (.ok _, t3) => (.ok (), t ++ t2 ++ t3)

/-- One iteration of Fetch's repository loop: derive the candidate index
URLs (and the expected index digest) from the metalink when one is
configured, else synthesize the single URL from the base URL, then run the
shared tail. -/
def fetchRepo (env : Env) (repo : Repository) : Except TopErr Unit × Trace :=
  if repo.metalink ≠ "" then
    match resolveMetaLink env repo with
    | (.error e, t) => (.error (.metalinkFailed repo.name e), t)
    | (.ok (ml, urls), t) =>
      match ml.repomodSHA256 with
      | .error m => (.error (.repomdShaFailed m), t)
      | .ok s =>
        let r := fetchRepoCont env repo s urls
        (r.fst, t ++ r.snd)
  else if repo.baseurl ≠ "" then
    fetchRepoCont env repo "" [trimSuffix repo.baseurl "/" ++ "/repodata/repomd.xml"]
  else
    fetchRepoCont env repo "" []

/-- RepoFetcherImpl.Fetch: process the configured repositories in order,
returning the first error. -/
def Fetch (env : Env) : List Repository → Except TopErr Unit × Trace
  | [] => (.ok (), ⟨[], []⟩)
  | repo :: rest =>
    match fetchRepo env repo with
    | (.error e, t) => (.error e, t)
    | (.ok _, t) =>
      let r := Fetch env rest
      (r.fst, t ++ r.snd)

/-- A candidate index URL on which resolveRepomd's loop advances to the
next mirror: a transport error, a cache-write error, or (with the checksum
absent or matching) a decode error. -/
def candidateRecovers (env : Env) (repo : Repository) (sha256sum : String) (u : String) : Bool :=
  match env.get u with
  | .error _ => true
  | .ok body =>
    match env.write repo.name "repomd.xml" body with
    | some _ => true
    | none =>
      if sha256sum ≠ "" ∧ env.digest body ≠ sha256sum then false
      else
        match env.parseRepomd body with
        | .error _ => true
        | .ok _ => false

/-! ## Concrete fixtures used by the witness theorems -/

def urlMeta : String := "https://meta.ex/ml"

def urlM0 : String := "https://m0.ex/fedora/repodata/repomd.xml"

def urlM1 : String := "https://m1.ex/fedora/repodata/repomd.xml"

def urlM2 : String := "https://m2.ex/fedora/repodata/repomd.xml"

def fixData1 : Data := ⟨"primary", "sha256", "pp", "repodata/primary.xml"⟩

def fixData2 : Data := ⟨"filelists", "sha256", "ff", "repodata/filelists.xml"⟩

def fixRmd : Repomd := ⟨[fixData1, fixData2]⟩

/-- An index entry declaring an algorithm the verifier does not know. -/
def fixDataBad : Data := ⟨"primary", "sha512", "pp", "repodata/primary.xml"⟩

def fixRmdBad : Repomd := ⟨[fixDataBad]⟩

def fixMlFile : MFile :=
  ⟨"repomd.xml", [⟨"http://i.ex/r", "http"⟩, ⟨urlM1, "https"⟩, ⟨urlM2, "https"⟩], some "dd"⟩

def fixMl : Metalink := ⟨[fixMlFile]⟩

/-- A metalink whose repomd.xml entry states no sha256 checksum. -/
def fixMlNoSha : Metalink := ⟨[⟨"repomd.xml", [⟨urlM1, "https"⟩], none⟩]⟩

def fixRepo : Repository := ⟨"alpha", urlMeta, ""⟩

def fixRepoB : Repository := ⟨"beta", "", "https://base.ex"⟩

def fixMirror : GoURL := ⟨"https", "m1.ex", "/fedora/"⟩

/-- An environment where the whole pipeline succeeds through mirror m1
after m0 is unreachable. -/
def envOk : Env where
  get u :=
    if u = urlMeta then .ok "ML"
    else if u = urlM0 then .error "down"
    else if u = urlM1 then .ok "IDX"
    else if u = "https://m1.ex/fedora/repodata/primary.xml" then .ok "P"
    else if u = "https://m1.ex/fedora/repodata/filelists.xml" then .ok "F"
    else .error "404"
  write _ _ _ := none
  parseMetalink b := if b = "ML" then .ok fixMl else .error "badml"
  parseRepomd b := if b = "IDX" then .ok fixRmd else .error "badxml"
  digest b := if b = "IDX" then "dd" else if b = "P" then "pp" else if b = "F" then "ff" else "zz"

/-- An environment where every request fails at the transport. -/
def envDown : Env where
  get _ := .error "down"
  write _ _ _ := none
  parseMetalink _ := .error "badml"
  parseRepomd _ := .error "badxml"
  digest _ := "zz"

/-- An environment where mirror m1 serves an index whose digest is bb and
a primary file whose digest is qq (both defeating their expected sums). -/
def envMis : Env where
  get u :=
    if u = urlM0 then .error "down"
    else if u = urlM1 then .ok "IDX"
    else if u = "https://m1.ex/fedora/repodata/primary.xml" then .ok "P"
    else .error "404"
  write _ _ _ := none
  parseMetalink _ := .error "badml"
  parseRepomd b := if b = "IDX" then .ok fixRmd else .error "badxml"
  digest b := if b = "IDX" then "bb" else if b = "P" then "qq" else "zz"

/-- An environment whose metalink document parses to `fixMlNoSha`. -/
def envNoSha : Env where
  get u := if u = urlMeta then .ok "ML" else .error "404"
  write _ _ _ := none
  parseMetalink b := if b = "ML" then .ok fixMlNoSha else .error "badml"
  parseRepomd _ := .error "badxml"
  digest _ := "zz"

/-! ## Mirror-loop lemmas -/

theorem repomdLoop_skip (env : Env) (repo : Repository) (sha : String) (u : String)
    (rest : List String) (h : candidateRecovers env repo sha u = true) :
    (repomdLoop env repo sha (u :: rest)).fst = (repomdLoop env repo sha rest).fst ∧
    (repomdLoop env repo sha (u :: rest)).snd.requests
      = u :: (repomdLoop env repo sha rest).snd.requests := by
  unfold candidateRecovers at h
  cases hg : env.get u with
  | error m => simp [repomdLoop, hg]
  | ok body =>
    simp only [hg] at h
    cases hw : env.write repo.name "repomd.xml" body with
    | some m => simp [repomdLoop, hg, hw]
    | none =>
      simp only [hw] at h
      by_cases hc : sha ≠ "" ∧ env.digest body ≠ sha
      · rw [if_pos hc] at h
        exact absurd h (by simp)
      · rw [if_neg hc] at h
        cases hp : env.parseRepomd body with
        | error m =>
          simp only [repomdLoop, hg, hw, hp]
          rw [if_neg hc]
          simp
        | ok f =>
          simp only [hp] at h
          exact absurd h (by simp)

theorem repomdLoop_mismatch_head (env : Env) (repo : Repository) (sha u body : String)
    (rest : List String) (hg : env.get u = .ok body)
    (hw : env.write repo.name "repomd.xml" body = none)
    (hs : sha ≠ "") (hd : env.digest body ≠ sha) :
    repomdLoop env repo sha (u :: rest)
      = (.mismatch sha (env.digest body), ⟨[u], [(repo.name, "repomd.xml", body)]⟩) := by
  simp only [repomdLoop, hg, hw]
  rw [if_pos ⟨hs, hd⟩]

theorem repomdLoop_found_head (env : Env) (repo : Repository) (sha u body : String)
    (f : Repomd) (rest : List String) (hg : env.get u = .ok body)
    (hw : env.write repo.name "repomd.xml" body = none)
    (hc : ¬(sha ≠ "" ∧ env.digest body ≠ sha)) (hp : env.parseRepomd body = .ok f) :
    repomdLoop env repo sha (u :: rest)
      = (.found f (urlParse u), ⟨[u], [(repo.name, "repomd.xml", body)]⟩) := by
  simp only [repomdLoop, hg, hw, hp]
  rw [if_neg hc]

theorem repomdLoop_prefix (env : Env) (repo : Repository) (sha : String) :
    ∀ pre l, (∀ v ∈ pre, candidateRecovers env repo sha v = true) →
    (repomdLoop env repo sha (pre ++ l)).fst = (repomdLoop env repo sha l).fst ∧
    (repomdLoop env repo sha (pre ++ l)).snd.requests
      = pre ++ (repomdLoop env repo sha l).snd.requests := by
  intro pre
  induction pre with
  | nil => simp
  | cons v pre ih =>
    intro l hall
    have hv : candidateRecovers env repo sha v = true := hall v (by simp)
    have hrest := ih l (fun w hw => hall w (by simp [hw]))
    have hskip := repomdLoop_skip env repo sha v (pre ++ l) hv
    refine ⟨?_, ?_⟩
    · rw [List.cons_append, hskip.1, hrest.1]
    · rw [List.cons_append, hskip.2, hrest.2]
      simp

theorem repomdLoop_exhausted_iff (env : Env) (repo : Repository) (sha : String) :
    ∀ urls : List String, ((repomdLoop env repo sha urls).fst = .exhausted ↔
      ∀ u ∈ urls, candidateRecovers env repo sha u = true) := by
  intro urls
  induction urls with
  | nil => simp [repomdLoop]
  | cons u rest ih =>
    by_cases h : candidateRecovers env repo sha u = true
    · rw [List.forall_mem_cons, (repomdLoop_skip env repo sha u rest h).1]
      simp [h, ih]
    · constructor
      · intro hex
        exfalso
        unfold candidateRecovers at h
        cases hg : env.get u with
        | error m => simp only [hg] at h; simp at h
        | ok body =>
          simp only [hg] at h
          cases hw : env.write repo.name "repomd.xml" body with
          | some m => simp only [hw] at h; simp at h
          | none =>
            simp only [hw] at h
            by_cases hc : sha ≠ "" ∧ env.digest body ≠ sha
            · rw [repomdLoop_mismatch_head env repo sha u body rest hg hw hc.1 hc.2] at hex
              simp at hex
            · rw [if_neg hc] at h
              cases hp : env.parseRepomd body with
              | error m => simp only [hp] at h; simp at h
              | ok f =>
                rw [repomdLoop_found_head env repo sha u body f rest hg hw hc hp] at hex
                simp at hex
      · intro hall
        exact absurd (hall u (by simp)) h

/-! ## Claim C3 -/

/-- Claim C3: while iterating candidate repository-index URLs in order, a
network failure, a write failure, or a parse failure on one candidate is
recovered locally by advancing to the next candidate (the outcome equals the
outcome on the remaining candidates, so a single bad mirror never aborts the
repository), and the mirrors-exhausted error is surfaced exactly when every
candidate in the list fails that way.  (The accompanying log lines are
side effects outside the model.) -/
theorem claim_C3 (env : Env) (repo : Repository) (sha : String) :
    (∀ urls : List String,
      ((resolveRepomd env repo urls sha).fst = Except.error FErr.mirrorsExhausted ↔
        ∀ u ∈ urls, candidateRecovers env repo sha u = true)) ∧
    (∀ u rest, candidateRecovers env repo sha u = true →
      (resolveRepomd env repo (u :: rest) sha).fst
        = (resolveRepomd env repo rest sha).fst) := by
  constructor
  · intro urls
    rw [← repomdLoop_exhausted_iff env repo sha urls]
    unfold resolveRepomd
    rcases hl : repomdLoop env repo sha urls with ⟨o, t⟩
    cases o with
    | found f u2 => simp
    | mismatch e a => simp
    | exhausted => simp
  · intro u rest h
    have hs := repomdLoop_skip env repo sha u rest h
    unfold resolveRepomd
    rcases hl1 : repomdLoop env repo sha (u :: rest) with ⟨o1, t1⟩
    rcases hl2 : repomdLoop env repo sha rest with ⟨o2, t2⟩
    rw [hl1, hl2] at hs
    have ho : o1 = o2 := hs.1
    subst ho
    cases o1 <;> simp

/-- Witness for C3: with every mirror unreachable, both candidates fail
recoverably and resolveRepomd reports mirrors-exhausted. -/
theorem claim_C3_witness :
    (resolveRepomd envDown fixRepo [urlM1, urlM2] "dd").fst
      = Except.error FErr.mirrorsExhausted :=
  ((claim_C3 envDown fixRepo "dd").1 [urlM1, urlM2]).mpr (by decide)

/-! ## Claim C1 -/

/-- Claim C1 counterexample: with an expected checksum "aa" from the
metalink and mirror m1 serving an index whose digest is "bb", resolveRepomd
aborts at m1 with the checksum-mismatch error and never requests m2 — but
the returned error (even after Fetch's per-repository wrapping) does not
name the mirror: its message contains no part of the mirror URL.  The log
line that names the mirror is not part of the returned error.  So the
claim's "error naming that mirror" is false on the code. -/
theorem claim_C1_counterexample :
    (resolveRepomd envMis fixRepo [urlM1, urlM2] "aa").fst
      = Except.error (FErr.checksumMismatch "aa" "bb") ∧
    (resolveRepomd envMis fixRepo [urlM1, urlM2] "aa").snd.requests = [urlM1] ∧
    strContains (renderF (FErr.checksumMismatch "aa" "bb")) "m1.ex" = false ∧
    strContains (renderTop (TopErr.repomdFailed "alpha" (FErr.checksumMismatch "aa" "bb")))
      "m1.ex" = false :=
  ⟨by rfl, by rfl, by decide, by decide⟩

/-- Claim C1 (amended): if an expected checksum was recorded from the
metalink and the digest of a fetched repomd.xml differs from it, the fetch
aborts the whole repository immediately with a checksum-mismatch error
carrying both digests (the mirror is identified in the log, not in the
error), and no later mirror candidate is ever attempted after the
mismatch. -/
theorem claim_C1_amended (env : Env) (repo : Repository) (sha : String)
    (pre rest : List String) (u body : String)
    (hpre : ∀ v ∈ pre, candidateRecovers env repo sha v = true)
    (hg : env.get u = Except.ok body)
    (hw : env.write repo.name "repomd.xml" body = none)
    (hs : sha ≠ "") (hd : env.digest body ≠ sha) :
    (resolveRepomd env repo (pre ++ u :: rest) sha).fst
      = Except.error (FErr.checksumMismatch sha (env.digest body)) ∧
    (resolveRepomd env repo (pre ++ u :: rest) sha).snd.requests = pre ++ [u] ∧
    ∀ w ∈ rest, w ∉ pre → w ≠ u →
      w ∉ (resolveRepomd env repo (pre ++ u :: rest) sha).snd.requests := by
  have hp := repomdLoop_prefix env repo sha pre (u :: rest) hpre
  have hm := repomdLoop_mismatch_head env repo sha u body rest hg hw hs hd
  rw [hm] at hp
  unfold resolveRepomd
  rcases hl : repomdLoop env repo sha (pre ++ u :: rest) with ⟨o, t⟩
  rw [hl] at hp
  have ho : o = LoopOut.mismatch sha (env.digest body) := hp.1
  have ht : t.requests = pre ++ [u] := by
    have := hp.2
    simpa using this
  subst ho
  refine ⟨rfl, by simpa using ht, ?_⟩
  intro w hwr hnp hne hmem
  simp only [ht] at hmem
  have hmem2 : w ∈ pre ∨ w = u := by simpa using hmem
  rcases hmem2 with hin | hin
  · exact hnp hin
  · exact hne hin

/-- Witness for the amended C1: mirror m0 is down (recovered), mirror m1
mismatches ("bb" against expected "aa"); the fetch stops there and m2 is
never requested. -/
theorem claim_C1_amended_witness :
    (resolveRepomd envMis fixRepo ([urlM0] ++ urlM1 :: [urlM2]) "aa").fst
      = Except.error (FErr.checksumMismatch "aa" (envMis.digest "IDX")) ∧
    (resolveRepomd envMis fixRepo ([urlM0] ++ urlM1 :: [urlM2]) "aa").snd.requests
      = [urlM0] ++ [urlM1] ∧
    ∀ w ∈ [urlM2], w ∉ [urlM0] → w ≠ urlM1 →
      w ∉ (resolveRepomd envMis fixRepo ([urlM0] ++ urlM1 :: [urlM2]) "aa").snd.requests :=
  claim_C1_amended envMis fixRepo "aa" [urlM0] [urlM2] urlM1 "IDX"
    (by decide) (by rfl) (by rfl) (by decide) (by decide)

/-! ## Claim C4 -/

theorem foldl_https_filter (l : List MURL) :
    ∀ acc : List String,
      l.foldl httpsStep acc
        = acc ++ (l.filter (fun u => u.protocol == "https")).map MURL.text := by
  induction l with
  | nil => simp
  | cons u l ih =>
    intro acc
    rw [List.foldl_cons, ih, List.filter_cons]
    unfold httpsStep
    cases h : (u.protocol == "https") with
    | true => simp
    | false => simp

/-- Claim C4: mirror resolution from a metalink keeps only https URLs in
document order (the result is exactly the filter of the repomd entry's URL
list), fetches nothing but the metalink document itself (the request trace
is always just the metalink URL, so no candidate is fetched), and returns
the no-secure-mirror error exactly when the filtered list is empty. -/
theorem claim_C4 (env : Env) (repo : Repository) :
    ((resolveMetaLink env repo).snd.requests = [repo.metalink]) ∧
    (∀ body ml f, env.get repo.metalink = Except.ok body →
      env.write repo.name "metalink" body = none →
      env.parseMetalink body = Except.ok ml → ml.repomod = some f →
      ((((f.urls.filter (fun u => u.protocol == "https")).map MURL.text) = [] →
        (resolveMetaLink env repo).fst = Except.error FErr.noSecureMirror) ∧
      ((((f.urls.filter (fun u => u.protocol == "https")).map MURL.text) ≠ []) →
        (resolveMetaLink env repo).fst
          = Except.ok (ml, (f.urls.filter (fun u => u.protocol == "https")).map MURL.text)))) := by
  constructor
  · unfold resolveMetaLink
    cases hg : env.get repo.metalink with
    | error m => rfl
    | ok body =>
      simp only []
      cases hw : env.write repo.name "metalink" body with
      | some m => simp only [hw]
      | none =>
        simp only [hw]
        cases hp : env.parseMetalink body with
        | error m => simp only [hp]
        | ok ml =>
          simp only [hp]
          cases hr : ml.repomod with
          | none => simp only [hr]
          | some f =>
            simp only [hr]
            split <;> rfl
  · intro body ml f hg hw hp hr
    constructor
    · intro heq
      unfold resolveMetaLink
      simp only [hg, hw, hp, hr, foldl_https_filter, List.nil_append, heq]
      rfl
    · intro hne
      unfold resolveMetaLink
      simp only [hg, hw, hp, hr, foldl_https_filter, List.nil_append]
      rw [if_neg (by simpa using hne)]

/-- Witness for C4: on the fixture metalink the http mirror is dropped and
the two https mirrors are returned in document order. -/
theorem claim_C4_witness :
    (resolveMetaLink envOk fixRepo).fst
      = Except.ok (fixMl, (fixMlFile.urls.filter (fun u => u.protocol == "https")).map MURL.text) :=
  ((claim_C4 envOk fixRepo).2 "ML" fixMl fixMlFile (by rfl) (by rfl) (by rfl) (by rfl)).2
    (by decide)

/-! ## Path lemmas (for Claim C6) -/

theorem splitCh_ne_nil (sep : Char) (l : List Char) : splitCh sep l ≠ [] := by
  cases l with
  | nil => simp [splitCh]
  | cons c cs =>
    cases h : splitCh sep cs with
    | nil => simp [splitCh, h]
    | cons x t =>
      simp only [splitCh, h]
      split <;> simp

theorem splitCh_no_sep (sep : Char) : ∀ x : List Char, sep ∉ x → splitCh sep x = [x] := by
  intro x
  induction x with
  | nil => intro _; rfl
  | cons c cs ih =>
    intro h
    have hc : ¬c = sep := fun e => h (by simp [e])
    have hcs : sep ∉ cs := fun hm => h (by simp [hm])
    simp only [splitCh, ih hcs]
    rw [if_neg hc]

theorem splitCh_sep_cons (sep : Char) : ∀ x l : List Char, sep ∉ x →
    splitCh sep (x ++ sep :: l) = x :: splitCh sep l := by
  intro x
  induction x with
  | nil =>
    intro l _
    simp only [List.nil_append, splitCh]
    cases hl : splitCh sep l with
    | nil => exact absurd hl (splitCh_ne_nil sep l)
    | cons y t => simp
  | cons c cs ih =>
    intro l h
    have hc : ¬c = sep := fun e => h (by simp [e])
    have hcs : sep ∉ cs := fun hm => h (by simp [hm])
    simp only [List.cons_append, splitCh, List.append_eq, ih l hcs]
    rw [if_neg hc]

theorem splitCh_join (sep : Char) : ∀ parts : List (List Char), parts ≠ [] →
    (∀ x ∈ parts, sep ∉ x) → splitCh sep (joinCh sep parts) = parts := by
  intro parts
  induction parts with
  | nil => intro h; exact absurd rfl h
  | cons x parts ih =>
    intro _ hall
    cases parts with
    | nil => exact splitCh_no_sep sep x (hall x (by simp))
    | cons y rest =>
      have hx : sep ∉ x := hall x (by simp)
      rw [show joinCh sep (x :: y :: rest) = x ++ sep :: joinCh sep (y :: rest) from rfl,
        splitCh_sep_cons sep x _ hx, ih (by simp) (fun z hz => hall z (by simp [hz]))]

theorem joinCh_cons (sep : Char) (x : List Char) (xs : List (List Char)) (h : xs ≠ []) :
    joinCh sep (x :: xs) = x ++ sep :: joinCh sep xs := by
  cases xs with
  | nil => exact absurd rfl h
  | cons y t => rfl

theorem joinCh_append (sep : Char) : ∀ l1 l2 : List (List Char), l1 ≠ [] → l2 ≠ [] →
    joinCh sep (l1 ++ l2) = joinCh sep l1 ++ sep :: joinCh sep l2 := by
  intro l1
  induction l1 with
  | nil => intro l2 h _; exact absurd rfl h
  | cons x l1 ih =>
    intro l2 _ h2
    cases l1 with
    | nil => simp [joinCh_cons sep x l2 h2, joinCh]
    | cons y t =>
      rw [List.cons_append, joinCh_cons sep x (y :: t ++ l2) (by simp),
        ih l2 (by simp) h2, joinCh_cons sep x (y :: t) (by simp)]
      simp

theorem foldl_cleanStep (rooted : Bool) :
    ∀ (l acc : List (List Char)), (∀ s ∈ l, s = [] ∨ normalSeg s) →
      l.foldl (cleanStep rooted) acc
        = (l.filter (fun s => !s.isEmpty)).reverse ++ acc := by
  intro l
  induction l with
  | nil => intro acc _; simp
  | cons s l ih =>
    intro acc hall
    rcases hall s (by simp) with hs | hs
    · subst hs
      rw [List.foldl_cons, List.filter_cons]
      have hstep : cleanStep rooted acc [] = acc := by simp [cleanStep]
      rw [hstep, ih acc (fun z hz => hall z (by simp [hz]))]
      simp
    · rw [List.foldl_cons, List.filter_cons]
      have h1 : ¬(s = [] ∨ s = ['.']) := by
        rintro (h | h)
        · exact hs.1 h
        · exact hs.2.2.1 h
      have hstep : cleanStep rooted acc s = s :: acc := by
        unfold cleanStep
        rw [if_neg h1, if_neg hs.2.2.2]
      rw [hstep, ih (s :: acc) (fun z hz => hall z (by simp [hz]))]
      have hne : (!s.isEmpty) = true := by
        cases s with
        | nil => exact absurd rfl hs.1
        | cons a t => simp
      rw [hne]
      simp

theorem data_mk (l : List Char) : (String.mk l).data = l := rfl

theorem goClean_rooted (ccs : List (List Char)) (hne : ccs ≠ [])
    (hall : ∀ cs ∈ ccs, normalSeg cs) :
    goClean (String.mk ('/' :: (joinCh '/' ccs ++ ['/'])))
      = String.mk ('/' :: joinCh '/' ccs) := by
  have hmem : ∀ x ∈ ccs ++ [[]], '/' ∉ x := by
    intro x hx
    rcases List.mem_append.mp hx with h | h
    · exact (hall x h).2.1
    · simp only [List.mem_singleton] at h
      subst h
      simp
  have hjoin : joinCh '/' ccs ++ ['/'] = joinCh '/' (ccs ++ [[]]) := by
    rw [joinCh_append '/' ccs [[]] hne (by simp)]
    rfl
  have hsplit : splitCh '/' (('/' : Char) :: (joinCh '/' ccs ++ ['/']))
      = [] :: (ccs ++ [[]]) := by
    have h0 := splitCh_sep_cons '/' [] (joinCh '/' ccs ++ ['/']) (by simp)
    rw [List.nil_append] at h0
    rw [h0, hjoin, splitCh_join '/' (ccs ++ [[]]) (by simp) hmem]
  have hnormal : ∀ s ∈ ([] :: (ccs ++ [[]])), s = [] ∨ normalSeg s := by
    intro s hs
    rcases List.mem_cons.mp hs with h | h
    · exact Or.inl h
    · rcases List.mem_append.mp h with h2 | h2
      · exact Or.inr (hall s h2)
      · exact Or.inl (List.mem_singleton.mp h2)
  have hfilter : (([] :: (ccs ++ [[]])).filter (fun s => !s.isEmpty)) = ccs := by
    rw [List.filter_cons, List.filter_append]
    have h1 : ccs.filter (fun s => !s.isEmpty) = ccs :=
      List.filter_eq_self.mpr (fun s hs => by
        have hn := (hall s hs).1
        cases s with
        | nil => exact absurd rfl hn
        | cons a t => simp)
    simp [h1]
  have hro : goIsAbs (String.mk ('/' :: (joinCh '/' ccs ++ ['/']))) = true := rfl
  unfold goClean
  rw [data_mk, if_neg (by simp)]
  simp only [hro, hsplit, data_mk]
  rw [foldl_cleanStep true ([] :: (ccs ++ [[]])) [] hnormal, List.append_nil, hfilter,
    List.reverse_reverse]
  rw [if_neg hne]
  simp

theorem repomdBasePath_normal (css : List (List Char)) (hne : css ≠ [])
    (hall : ∀ cs ∈ css, normalSeg cs) :
    repomdBasePath
        (String.mk ('/' :: joinCh '/' (css ++ [String.data "repodata", String.data "repomd.xml"])))
      = String.mk ('/' :: (joinCh '/' css ++ ['/'])) := by
  have hrdn : normalSeg (String.data "repodata") := by decide
  have hrxn : normalSeg (String.data "repomd.xml") := by decide
  have hmem : ∀ x ∈ css ++ [String.data "repodata", String.data "repomd.xml"], '/' ∉ x := by
    intro x hx
    rcases List.mem_append.mp hx with h | h
    · exact (hall x h).2.1
    · rcases List.mem_cons.mp h with h1 | h1
      · subst h1
        decide
      · rcases List.mem_cons.mp h1 with h2 | h2
        · subst h2
          decide
        · exact absurd h2 (List.not_mem_nil x)
  have hsplit : splitCh '/'
        (('/' : Char) :: joinCh '/' (css ++ [String.data "repodata", String.data "repomd.xml"]))
      = [] :: (css ++ [String.data "repodata", String.data "repomd.xml"]) := by
    have h0 := splitCh_sep_cons '/' []
      (joinCh '/' (css ++ [String.data "repodata", String.data "repomd.xml"])) (by simp)
    rw [List.nil_append] at h0
    rw [h0, splitCh_join '/' _ (by simp) hmem]
  have hdrop : ([] :: (css ++ [String.data "repodata", String.data "repomd.xml"])).dropLast
      = [] :: (css ++ [String.data "repodata"]) := by
    have h1 : ([] :: (css ++ [String.data "repodata", String.data "repomd.xml"]))
        = ([] :: (css ++ [String.data "repodata"])) ++ [String.data "repomd.xml"] := by simp
    rw [h1, List.dropLast_concat]
  unfold repomdBasePath goDir
  rw [data_mk]
  simp only [hsplit]
  rw [if_neg (by simp [List.length_append])]
  rw [hdrop, joinCh_cons '/' [] (css ++ [String.data "repodata"]) (by simp), List.nil_append]
  have harg : (('/' :: joinCh '/' (css ++ [String.data "repodata"])) ++ ['/'])
      = ('/' :: (joinCh '/' (css ++ [String.data "repodata"]) ++ ['/'])) := by simp
  rw [harg, goClean_rooted (css ++ [String.data "repodata"]) (by simp)
    (fun cs hcs => by
      rcases List.mem_append.mp hcs with h | h
      · exact hall cs h
      · simp only [List.mem_singleton] at h
        subst h
        exact hrdn)]
  have hjn : joinCh '/' (css ++ [String.data "repodata"])
      = joinCh '/' css ++ '/' :: String.data "repodata" := by
    rw [joinCh_append '/' css [String.data "repodata"] hne (by simp)]
    rfl
  have hform : ('/' :: joinCh '/' (css ++ [String.data "repodata"]))
      = (('/' :: joinCh '/' css) ++ ['/']) ++ String.data "repodata" := by
    rw [hjn]
    simp
  unfold trimSuffix
  rw [data_mk, hform]
  rw [if_pos (List.isSuffixOf_iff_suffix.mpr (List.suffix_append _ _))]
  have hlen : ((('/' :: joinCh '/' css) ++ ['/']) ++ String.data "repodata").length
      - (String.data "repodata").length = (('/' :: joinCh '/' css) ++ ['/']).length := by
    simp [List.length_append]
  rw [hlen, List.take_left]
  simp

/-! ## Claim C6 -/

/-- Claim C6: typed metadata files are fetched only from the single mirror
pinned by the successful index fetch.  Part 1: the pinned mirror returned
by resolveRepomd is the successful candidate URL with its path rewritten to
the mirror base (the trailing repodata/repomd.xml removed).  Part 2: on any
normal path of the shape /…/repodata/repomd.xml that rewriting removes
exactly the trailing repodata/repomd.xml, leaving the base directory.
Part 3: fetchFile requests exactly one URL, the entry's href itself when it
is path-absolute, else the pinned mirror with the href joined onto its base
path. -/
theorem claim_C6 :
    (∀ (env : Env) (repo : Repository) (sha : String) (pre rest : List String)
      (u body : String) (f : Repomd),
      (∀ v ∈ pre, candidateRecovers env repo sha v = true) →
      env.get u = Except.ok body →
      env.write repo.name "repomd.xml" body = none →
      ¬(sha ≠ "" ∧ env.digest body ≠ sha) →
      env.parseRepomd body = Except.ok f →
      (resolveRepomd env repo (pre ++ u :: rest) sha).fst
        = Except.ok (f, { urlParse u with path := repomdBasePath (urlParse u).path })) ∧
    (∀ css : List (List Char), css ≠ [] → (∀ cs ∈ css, normalSeg cs) →
      repomdBasePath
          (String.mk ('/' :: joinCh '/' (css ++ [String.data "repodata", String.data "repomd.xml"])))
        = String.mk ('/' :: (joinCh '/' css ++ ['/']))) ∧
    (∀ (env : Env) (fileType : String) (repo : Repository) (rmd : Repomd)
      (mirror : GoURL) (d : Data),
      rmd.file fileType = some d → d.locationHref ≠ "" →
      ((fetchFile env fileType repo rmd mirror).snd.requests
          = [typedFileURL mirror d.locationHref] ∧
        (goIsAbs d.locationHref = true →
          typedFileURL mirror d.locationHref = d.locationHref) ∧
        (goIsAbs d.locationHref = false →
          typedFileURL mirror d.locationHref
            = GoURL.render { mirror with path := goJoin mirror.path d.locationHref }))) := by
  refine ⟨?_, ?_, ?_⟩
  · intro env repo sha pre rest u body f hpre hg hw hc hp
    have hprefix := repomdLoop_prefix env repo sha pre (u :: rest) hpre
    have hfound := repomdLoop_found_head env repo sha u body f rest hg hw hc hp
    rw [hfound] at hprefix
    unfold resolveRepomd
    rcases hl : repomdLoop env repo sha (pre ++ u :: rest) with ⟨o, t⟩
    rw [hl] at hprefix
    have ho : o = LoopOut.found f (urlParse u) := hprefix.1
    subst ho
    rfl
  · exact fun css h1 h2 => repomdBasePath_normal css h1 h2
  · intro env fileType repo rmd mirror d hfile hhref
    refine ⟨?_, ?_, ?_⟩
    · unfold fetchFile
      simp only [hfile]
      rw [if_neg hhref]
      cases hg2 : env.get (typedFileURL mirror d.locationHref) with
      | error m => rfl
      | ok body =>
        simp only []
        cases hw2 : env.write repo.name (goBase d.locationHref) body with
        | some m => simp only [hw2]
        | none =>
          simp only [hw2]
          cases hs2 : d.getSHA256 with
          | error m => simp only [hs2]
          | ok s =>
            simp only [hs2]
            split <;> rfl
    · intro habs
      unfold typedFileURL
      rw [if_pos habs]
    · intro habs
      unfold typedFileURL
      rw [if_neg (by simp [habs])]

/-- Witness for C6 at the fixtures: the pinned mirror for m1 has base path
/fedora/, the mirror-base computation on /fedora/repodata/repomd.xml gives
/fedora/, and fetchFile for the primary entry requests exactly the joined
mirror URL. -/
theorem claim_C6_witness :
    (resolveRepomd envOk fixRepo ([urlM0] ++ urlM1 :: []) "dd").fst
      = Except.ok (fixRmd, { urlParse urlM1 with path := repomdBasePath (urlParse urlM1).path }) ∧
    repomdBasePath
        (String.mk ('/' :: joinCh '/'
          ([String.data "fedora"] ++ [String.data "repodata", String.data "repomd.xml"])))
      = String.mk ('/' :: (joinCh '/' [String.data "fedora"] ++ ['/'])) ∧
    (fetchFile envOk "primary" fixRepo fixRmd fixMirror).snd.requests
      = [typedFileURL fixMirror fixData1.locationHref] :=
  ⟨claim_C6.1 envOk fixRepo "dd" [urlM0] [] urlM1 "IDX" fixRmd
      (by decide) (by rfl) (by rfl) (by decide) (by rfl),
    claim_C6.2.1 [String.data "fedora"] (by decide) (by decide),
    (claim_C6.2.2 envOk "primary" fixRepo fixRmd fixMirror fixData1 (by rfl) (by decide)).1⟩

/-! ## Claims C5, C10, C8 -/

/-- Claim C5: for a typed metadata file, a missing entry in the verified
index, a missing location href, or a checksum mismatch on the fetched file
is a hard error; fetchFile contacts at most one URL, so the typed file is
never retried against another mirror, and a failing primary fetch aborts
the whole repository in the continuation. -/
theorem claim_C5 (env : Env) (fileType : String) (repo : Repository) (rmd : Repomd)
    (mirror : GoURL) :
    (rmd.file fileType = none →
      fetchFile env fileType repo rmd mirror = (Except.error FErr.noFileEntry, ⟨[], []⟩)) ∧
    (∀ d, rmd.file fileType = some d → d.locationHref = "" →
      fetchFile env fileType repo rmd mirror = (Except.error FErr.noHref, ⟨[], []⟩)) ∧
    (∀ d body, rmd.file fileType = some d → d.locationHref ≠ "" →
      env.get (typedFileURL mirror d.locationHref) = Except.ok body →
      env.write repo.name (goBase d.locationHref) body = none →
      d.checksumType = "sha256" → d.checksumText ≠ env.digest body →
      (fetchFile env fileType repo rmd mirror).fst
        = Except.error (FErr.checksumMismatch d.checksumText (env.digest body))) ∧
    ((fetchFile env fileType repo rmd mirror).snd.requests.length ≤ 1) ∧
    (∀ sha urls rmd2 mirror2 t e t2,
      resolveRepomd env repo urls sha = (Except.ok (rmd2, mirror2), t) →
      fetchFile env PrimaryFileType repo rmd2 mirror2 = (Except.error e, t2) →
      (fetchRepoCont env repo sha urls).fst
        = Except.error (TopErr.primaryFailed repo.name e)) := by
  refine ⟨?_, ?_, ?_, ?_, ?_⟩
  · intro h
    unfold fetchFile
    rw [h]
  · intro d hd hhref
    unfold fetchFile
    rw [hd]
    simp only []
    rw [if_pos hhref]
  · intro d body hd hhref hg hw hct hne
    unfold fetchFile
    rw [hd]
    simp only []
    rw [if_neg hhref]
    simp only [hg, hw]
    have hsha : d.getSHA256 = Except.ok d.checksumText := by
      unfold Data.getSHA256
      rw [if_pos hct]
    simp only [hsha]
    rw [if_pos hne]
  · unfold fetchFile
    cases hf : rmd.file fileType with
    | none => simp
    | some d =>
      simp only []
      split
      · simp
      · cases hg : env.get (typedFileURL mirror d.locationHref) with
        | error m => simp
        | ok body =>
          simp only []
          cases hw : env.write repo.name (goBase d.locationHref) body with
          | some m => simp
          | none =>
            simp only []
            cases hs : d.getSHA256 with
            | error m => simp
            | ok s =>
              simp only []
              split <;> simp
  · intro sha urls rmd2 mirror2 t e t2 hres hff
    unfold fetchRepoCont
    rw [hres]
    simp only []
    rw [hff]

/-- Witness for C5: the primary file fetched from the pinned mirror hashes
to qq instead of the declared pp, and fetchFile fails with the mismatch. -/
theorem claim_C5_witness :
    (fetchFile envMis PrimaryFileType fixRepo fixRmd fixMirror).fst
      = Except.error (FErr.checksumMismatch fixData1.checksumText (envMis.digest "P")) :=
  (claim_C5 envMis PrimaryFileType fixRepo fixRmd fixMirror).2.2.1 fixData1 "P"
    (by rfl) (by decide) (by rfl) (by rfl) (by rfl) (by decide)

/-- Claim C10: when checksum verification of a typed file fails, the whole
body has already been persisted (it appears in the write trace) and remains
there: fetchFile returns the mismatch error with the write intact — the
model, like the code, has no removal operation. -/
theorem claim_C10 (env : Env) (fileType : String) (repo : Repository) (rmd : Repomd)
    (mirror : GoURL) (d : Data) (body : String)
    (hd : rmd.file fileType = some d) (hhref : d.locationHref ≠ "")
    (hg : env.get (typedFileURL mirror d.locationHref) = Except.ok body)
    (hw : env.write repo.name (goBase d.locationHref) body = none)
    (hct : d.checksumType = "sha256") (hne : d.checksumText ≠ env.digest body) :
    fetchFile env fileType repo rmd mirror
      = (Except.error (FErr.checksumMismatch d.checksumText (env.digest body)),
        ⟨[typedFileURL mirror d.locationHref],
          [(repo.name, goBase d.locationHref, body)]⟩) := by
  unfold fetchFile
  rw [hd]
  simp only []
  rw [if_neg hhref]
  simp only [hg, hw]
  have hsha : d.getSHA256 = Except.ok d.checksumText := by
    unfold Data.getSHA256
    rw [if_pos hct]
  simp only [hsha]
  rw [if_pos hne]

/-- Witness for C10: the mismatching primary body "P" is on disk (in the
write trace) when the mismatch error is returned. -/
theorem claim_C10_witness :
    fetchFile envMis PrimaryFileType fixRepo fixRmd fixMirror
      = (Except.error (FErr.checksumMismatch fixData1.checksumText (envMis.digest "P")),
        ⟨[typedFileURL fixMirror fixData1.locationHref],
          [(fixRepo.name, goBase fixData1.locationHref, "P")]⟩) :=
  claim_C10 envMis PrimaryFileType fixRepo fixRmd fixMirror fixData1 "P"
    (by rfl) (by decide) (by rfl) (by rfl) (by rfl) (by decide)

/-- Claim C8: an index entry declaring a checksum algorithm other than
sha256 (the only algorithm the verifier knows) is a hard error before any
digest comparison: fetchFile fails with the unsupported-algorithm error,
never succeeds (no silent skip) and never reports a digest comparison (no
substitute algorithm).  Data.SHA256 itself lives outside src/ and is
modelled from the spec. -/
theorem claim_C8 (env : Env) (fileType : String) (repo : Repository) (rmd : Repomd)
    (mirror : GoURL) (d : Data) (body : String)
    (hd : rmd.file fileType = some d) (hhref : d.locationHref ≠ "")
    (hg : env.get (typedFileURL mirror d.locationHref) = Except.ok body)
    (hw : env.write repo.name (goBase d.locationHref) body = none)
    (hct : d.checksumType ≠ "sha256") :
    (fetchFile env fileType repo rmd mirror).fst
      = Except.error (FErr.fileShaFailed ("unsupported checksum type " ++ d.checksumType)) ∧
    (∀ x y, (fetchFile env fileType repo rmd mirror).fst
      ≠ Except.error (FErr.checksumMismatch x y)) ∧
    (fetchFile env fileType repo rmd mirror).fst ≠ Except.ok () := by
  have h1 : (fetchFile env fileType repo rmd mirror).fst
      = Except.error (FErr.fileShaFailed ("unsupported checksum type " ++ d.checksumType)) := by
    unfold fetchFile
    rw [hd]
    simp only []
    rw [if_neg hhref]
    simp only [hg, hw]
    have hsha : d.getSHA256
        = Except.error ("unsupported checksum type " ++ d.checksumType) := by
      unfold Data.getSHA256
      rw [if_neg hct]
    simp only [hsha]
  refine ⟨h1, ?_, ?_⟩
  · intro x y
    rw [h1]
    simp
  · rw [h1]
    simp

/-- Witness for C8: the sha512-declaring entry makes fetchFile fail hard. -/
theorem claim_C8_witness :
    (fetchFile envMis PrimaryFileType fixRepo fixRmdBad fixMirror).fst
      = Except.error
          (FErr.fileShaFailed ("unsupported checksum type " ++ fixDataBad.checksumType)) :=
  (claim_C8 envMis PrimaryFileType fixRepo fixRmdBad fixMirror fixDataBad "P"
    (by rfl) (by decide) (by rfl) (by rfl) (by decide)).1

/-! ## Claim C2 -/

theorem data_append (s t : String) : (s ++ t).data = s.data ++ t.data := rfl

theorem renderF_mismatch_head (e a : String) :
    (renderF (FErr.checksumMismatch e a)).data.head? = some 'E' := by
  show ("Expected sha256 sum " ++ e ++ ", but got " ++ a).data.head? = some 'E'
  rw [data_append, data_append, data_append, List.append_assoc, List.append_assoc]
  cases hc : String.data "Expected sha256 sum " with
  | nil => exact absurd hc (by decide)
  | cons c cs =>
    have h2 : (String.data "Expected sha256 sum ").head? = some 'E' := by decide
    rw [hc] at h2
    simp only [List.head?_cons] at h2
    rw [List.cons_append, List.head?_cons, h2]

theorem renderF_getFailed_head (u m : String) :
    (renderF (FErr.fileGetFailed u m)).data.head? = some 'F' := by
  show ("Failed to load promary repository file from " ++ u ++ ": " ++ m).data.head? = some 'F'
  rw [data_append, data_append, data_append, List.append_assoc, List.append_assoc]
  cases hc : String.data "Failed to load promary repository file from " with
  | nil => exact absurd hc (by decide)
  | cons c cs =>
    have h2 : (String.data "Failed to load promary repository file from ").head?
        = some 'F' := by decide
    rw [hc] at h2
    simp only [List.head?_cons] at h2
    rw [List.cons_append, List.head?_cons, h2]

theorem renderF_writeFailed_head (u m : String) :
    (renderF (FErr.fileWriteFailed u m)).data.head? = some 'F' := by
  show ("Failed to write file.xml from " ++ u ++ " to file: " ++ m).data.head? = some 'F'
  rw [data_append, data_append, data_append, List.append_assoc, List.append_assoc]
  cases hc : String.data "Failed to write file.xml from " with
  | nil => exact absurd hc (by decide)
  | cons c cs =>
    have h2 : (String.data "Failed to write file.xml from ").head? = some 'F' := by decide
    rw [hc] at h2
    simp only [List.head?_cons] at h2
    rw [List.cons_append, List.head?_cons, h2]

/-- Claim C2: a checksum mismatch is a distinct error kind carrying both
the expected and the actual digest, and it is distinguishable from an I/O
failure: it differs from the load and write error values of fetchFile as a
value, and even its rendered fmt.Errorf message differs from theirs for
every possible payload (the messages start with different words). -/
theorem claim_C2 (e a u m : String) :
    (FErr.checksumMismatch e a).expectedDigest = some e ∧
    (FErr.checksumMismatch e a).actualDigest = some a ∧
    FErr.checksumMismatch e a ≠ FErr.fileGetFailed u m ∧
    FErr.checksumMismatch e a ≠ FErr.fileWriteFailed u m ∧
    renderF (FErr.checksumMismatch e a) ≠ renderF (FErr.fileGetFailed u m) ∧
    renderF (FErr.checksumMismatch e a) ≠ renderF (FErr.fileWriteFailed u m) := by
  refine ⟨rfl, rfl, by simp, by simp, ?_, ?_⟩
  · intro h
    have h1 := renderF_mismatch_head e a
    rw [h, renderF_getFailed_head u m] at h1
    exact absurd h1 (by decide)
  · intro h
    have h1 := renderF_mismatch_head e a
    rw [h, renderF_writeFailed_head u m] at h1
    exact absurd h1 (by decide)

/-- Witness for C2 at concrete digests and a concrete I/O error. -/
theorem claim_C2_witness :
    (FErr.checksumMismatch "aa" "bb").expectedDigest = some "aa" ∧
    (FErr.checksumMismatch "aa" "bb").actualDigest = some "bb" ∧
    renderF (FErr.checksumMismatch "aa" "bb")
      ≠ renderF (FErr.fileGetFailed "https://m1.ex/p.xml" "down") :=
  ⟨(claim_C2 "aa" "bb" "https://m1.ex/p.xml" "down").1,
    (claim_C2 "aa" "bb" "https://m1.ex/p.xml" "down").2.1,
    (claim_C2 "aa" "bb" "https://m1.ex/p.xml" "down").2.2.2.2.1⟩

/-! ## Claim C7 -/

theorem infixCh_self_append (n post : List Char) : infixCh n (n ++ post) = true := by
  have hp : n.isPrefixOf (n ++ post) = true :=
    List.isPrefixOf_iff_prefix.mpr (List.prefix_append n post)
  cases h : n ++ post with
  | nil =>
    have hn : n = [] := (List.append_eq_nil.mp h).1
    subst hn
    simp [infixCh]
  | cons c t =>
    rw [h] at hp
    show (n.isPrefixOf (c :: t) || infixCh n t) = true
    rw [hp]
    rfl

theorem infixCh_append (n : List Char) : ∀ pre post : List Char,
    infixCh n (pre ++ (n ++ post)) = true := by
  intro pre
  induction pre with
  | nil =>
    intro post
    simpa using infixCh_self_append n post
  | cons c pre ih =>
    intro post
    rw [List.cons_append]
    show (n.isPrefixOf (c :: (pre ++ (n ++ post))) || infixCh n (pre ++ (n ++ post))) = true
    rw [ih post]
    simp

theorem strContains_wrap (lead n tail : String) :
    strContains (lead ++ n ++ tail) n = true := by
  unfold strContains
  rw [show ((lead ++ n ++ tail).data = lead.data ++ (n.data ++ tail.data)) from by
    rw [data_append, data_append, List.append_assoc]]
  exact infixCh_append n.data lead.data tail.data

/-- Claim C7 counterexample: repository "alpha" declares a metalink whose
repomd.xml entry states no sha256 checksum, so Fetch stops at the
checksum-recording step of the metalink stage — but the error it returns
("failed to get sha256sum of repomd file: …") does not identify the failing
repository: its message does not contain "alpha".  (Fail-fast itself holds:
the trace shows repository "beta" was never touched.) -/
theorem claim_C7_counterexample :
    Fetch envNoSha [fixRepo, fixRepoB]
      = (Except.error (TopErr.repomdShaFailed "file has no sha256 hash"),
        ⟨[urlMeta], [("alpha", "metalink", "ML")]⟩) ∧
    strContains (renderTop (TopErr.repomdShaFailed "file has no sha256 hash")) "alpha"
      = false :=
  ⟨by rfl, by decide⟩

/-- Claim C7 (amended): Fetch fails fast — the first repository whose fetch
errors aborts the run with that error and exactly that repository's trace,
so no later repository is attempted — and the error identifies the stage
(by its wrapping message) and the failing repository at every stage except
the metalink-checksum extraction step, whose wrapper names only the
stage. -/
theorem claim_C7_amended (env : Env) (r : Repository) (rest : List Repository) :
    (∀ e t, fetchRepo env r = (Except.error e, t) →
      Fetch env (r :: rest) = (Except.error e, t)) ∧
    (∀ n f, strContains (renderTop (TopErr.metalinkFailed n f)) n = true) ∧
    (∀ n f, strContains (renderTop (TopErr.repomdFailed n f)) n = true) ∧
    (∀ n f, strContains (renderTop (TopErr.primaryFailed n f)) n = true) ∧
    (∀ n f, strContains (renderTop (TopErr.filelistsFailed n f)) n = true) := by
  refine ⟨?_, ?_, ?_, ?_, ?_⟩
  · intro e t h
    unfold Fetch
    rw [h]
  · intro n f
    have h : renderTop (TopErr.metalinkFailed n f)
        = "failed to resolve metalink for " ++ n ++ (": " ++ renderF f) := by
      show "failed to resolve metalink for " ++ n ++ ": " ++ renderF f = _
      rw [String.append_assoc]
    rw [h]
    exact strContains_wrap "failed to resolve metalink for " n (": " ++ renderF f)
  · intro n f
    have h : renderTop (TopErr.repomdFailed n f)
        = "failed to fetch repomd.xml for " ++ n ++ (": " ++ renderF f) := by
      show "failed to fetch repomd.xml for " ++ n ++ ": " ++ renderF f = _
      rw [String.append_assoc]
    rw [h]
    exact strContains_wrap "failed to fetch repomd.xml for " n (": " ++ renderF f)
  · intro n f
    have h : renderTop (TopErr.primaryFailed n f)
        = "failed to fetch primary.xml for " ++ n ++ (": " ++ renderF f) := by
      show "failed to fetch primary.xml for " ++ n ++ ": " ++ renderF f = _
      rw [String.append_assoc]
    rw [h]
    exact strContains_wrap "failed to fetch primary.xml for " n (": " ++ renderF f)
  · intro n f
    have h : renderTop (TopErr.filelistsFailed n f)
        = "failed to fetch filelists.xml for " ++ n ++ (": " ++ renderF f) := by
      show "failed to fetch filelists.xml for " ++ n ++ ": " ++ renderF f = _
      rw [String.append_assoc]
    rw [h]
    exact strContains_wrap "failed to fetch filelists.xml for " n (": " ++ renderF f)

/-- Witness for the amended C7: with the transport down, repository alpha
fails at the metalink stage, Fetch stops before touching beta, and the
wrapped error names alpha. -/
theorem claim_C7_amended_witness :
    Fetch envDown (fixRepo :: [fixRepoB])
      = (Except.error (TopErr.metalinkFailed "alpha" (FErr.transport "down")),
        ⟨[urlMeta], []⟩) ∧
    strContains (renderTop (TopErr.metalinkFailed "alpha" (FErr.transport "down"))) "alpha"
      = true :=
  ⟨(claim_C7_amended envDown fixRepo [fixRepoB]).1
      (TopErr.metalinkFailed "alpha" (FErr.transport "down")) ⟨[urlMeta], []⟩ (by rfl),
    (claim_C7_amended envDown fixRepo [fixRepoB]).2.1 "alpha" (FErr.transport "down")⟩

/-! ## Claim C9 -/

theorem fetchFile_name (env : Env) (ft n m b m2 b2 : String) (rmd : Repomd) (mir : GoURL) :
    fetchFile env ft ⟨n, m, b⟩ rmd mir = fetchFile env ft ⟨n, m2, b2⟩ rmd mir := rfl

theorem resolveMetaLink_name (env : Env) (n m b b2 : String) :
    resolveMetaLink env ⟨n, m, b⟩ = resolveMetaLink env ⟨n, m, b2⟩ := rfl

theorem repomdLoop_name (env : Env) (n m b m2 b2 sha : String) :
    ∀ urls, repomdLoop env ⟨n, m, b⟩ sha urls = repomdLoop env ⟨n, m2, b2⟩ sha urls := by
  intro urls
  induction urls with
  | nil => rfl
  | cons u rest ih =>
    cases hg : env.get u with
    | error m3 => simp only [repomdLoop, hg, ih]
    | ok body =>
      simp only [repomdLoop, hg]
      cases hw : env.write n "repomd.xml" body with
      | some m3 => simp only [hw, ih]
      | none =>
        simp only [hw]
        by_cases hc : sha ≠ "" ∧ env.digest body ≠ sha
        · rw [if_pos hc, if_pos hc]
        · rw [if_neg hc, if_neg hc]
          cases hp : env.parseRepomd body with
          | error m3 => simp only [hp, ih]
          | ok f => simp only [hp]

theorem resolveRepomd_name (env : Env) (n m b m2 b2 : String) (urls : List String)
    (sha : String) :
    resolveRepomd env ⟨n, m, b⟩ urls sha = resolveRepomd env ⟨n, m2, b2⟩ urls sha := by
  unfold resolveRepomd
  rw [repomdLoop_name env n m b m2 b2 sha urls]

theorem fetchRepoCont_name (env : Env) (n m b m2 b2 sha : String) (urls : List String) :
    fetchRepoCont env ⟨n, m, b⟩ sha urls = fetchRepoCont env ⟨n, m2, b2⟩ sha urls := by
  unfold fetchRepoCont
  rw [resolveRepomd_name env n m b m2 b2 urls sha]
  cases hres : resolveRepomd env ⟨n, m2, b2⟩ urls sha with
  | mk res t =>
    cases res with
    | error e => rfl
    | ok p => rfl

/-- Claim C9: when a repository declares both a metalink and a base URL,
Fetch derives the index candidates from the metalink only — the per-repo
fetch is completely independent of the base URL whenever the metalink field
is nonempty, the candidates passed on are exactly resolveMetaLink's, and
the synthesized baseurl + "/repodata/repomd.xml" candidate is used exactly
when the metalink field is empty. -/
theorem claim_C9 (env : Env) :
    (∀ n m b b2, m ≠ "" → fetchRepo env ⟨n, m, b⟩ = fetchRepo env ⟨n, m, b2⟩) ∧
    (∀ repo : Repository, repo.metalink = "" → repo.baseurl ≠ "" →
      fetchRepo env repo
        = fetchRepoCont env repo "" [trimSuffix repo.baseurl "/" ++ "/repodata/repomd.xml"]) ∧
    (∀ (repo : Repository) (ml : Metalink) (urls : List String) (t : Trace) (s : String),
      repo.metalink ≠ "" →
      resolveMetaLink env repo = (Except.ok (ml, urls), t) →
      ml.repomodSHA256 = Except.ok s →
      fetchRepo env repo
        = ((fetchRepoCont env repo s urls).fst, t ++ (fetchRepoCont env repo s urls).snd)) := by
  refine ⟨?_, ?_, ?_⟩
  · intro n m b b2 hm
    unfold fetchRepo
    rw [if_pos hm, if_pos hm, resolveMetaLink_name env n m b b2]
    cases hres : resolveMetaLink env ⟨n, m, b2⟩ with
    | mk res t =>
      cases res with
      | error e => rfl
      | ok p =>
        rcases p with ⟨ml, urls⟩
        simp only []
        cases hsha : ml.repomodSHA256 with
        | error m3 => rfl
        | ok s =>
          simp only []
          rw [fetchRepoCont_name env n m b m b2 s urls]
  · intro repo h1 h2
    unfold fetchRepo
    rw [if_neg (by simp [h1]), if_pos h2]
  · intro repo ml urls t s hm hres hsha
    unfold fetchRepo
    rw [if_pos hm, hres]
    simp only [hsha]

/-- Witness for C9: with a metalink configured, changing the base URL does
not change the fetch at all, and an empty metalink uses the synthesized
base candidate. -/
theorem claim_C9_witness :
    fetchRepo envOk ⟨"alpha", urlMeta, "https://unused.ex"⟩
      = fetchRepo envOk ⟨"alpha", urlMeta, "https://other.ex"⟩ ∧
    fetchRepo envOk fixRepoB
      = fetchRepoCont envOk fixRepoB ""
          [trimSuffix fixRepoB.baseurl "/" ++ "/repodata/repomd.xml"] :=
  ⟨(claim_C9 envOk).1 "alpha" urlMeta "https://unused.ex" "https://other.ex" (by decide),
    (claim_C9 envOk).2.1 fixRepoB (by rfl) (by decide)⟩
